import Mathlib

/-!
Verification of the animation core of a 2D game engine:
`src/animation/animation_controller.cpp` and
`src/animation/animation_state_machine.cpp`, over a shallow embedding.

Float arithmetic is embedded as exact rational arithmetic (`ℚ`); the
source's `epsilon` stepping tolerance and `max_steps` loop cap are carried
over literally.  Optional callbacks (`on_animation_end`,
`on_animation_loop`, `on_frame_change`) are modelled as a ghost event
trace: an event is appended exactly where the C++ would invoke the
corresponding callback if one is set.
-/

namespace Engine

/-- Ghost record of a callback invocation site being reached. -/
inductive AnimEvent where
  | animationEnd
  | animationLoop
  | frameChange (frame_index : ℤ)
deriving DecidableEq

/-- `AnimationData` from `texture_atlas.h`: name, ordered frame names,
default per-frame duration, optional per-frame duration overrides, loop flag. -/
structure AnimationData where
  name : String
  frame_names : List String
  frame_duration : ℚ := 1/10
  frame_durations : List ℚ := []
  loop : Bool := true
deriving DecidableEq

/-- The C++ call site passes an `int` index to a `size_t` parameter:
model the implementation-defined 64-bit wrap of that conversion. -/
def size_t_of (i : ℤ) : ℕ := (i % (2:ℤ) ^ 64).toNat

/-- `AnimationData::get_duration`: the per-frame override array wins when
non-empty and covering the index, else the default duration. -/
def AnimationData.get_duration (a : AnimationData) (frame_index : ℤ) : ℚ :=
  if ¬ a.frame_durations.isEmpty ∧ size_t_of frame_index < a.frame_durations.length then
    a.frame_durations.getD (size_t_of frame_index) 0
  else
    a.frame_duration

/-- `AnimationData::get_frame_count`. -/
def AnimationData.get_frame_count (a : AnimationData) : ℕ := a.frame_names.length

/-- The external catalog (`TextureAtlas`) as a name-indexed partial map of
animations; the controller only consumes `get_animation`. -/
structure TextureAtlas where
  animations : String → Option AnimationData

/-- `TextureAtlas::get_animation`. -/
def TextureAtlas.get_animation (t : TextureAtlas) (name : String) : Option AnimationData :=
  t.animations name

/-- Playback state of `AnimationController` (the `atlas` pointer is held
from construction; callbacks are the ghost `events` trace). -/
structure AnimationController where
  atlas : TextureAtlas
  current_anim : Option AnimationData := none
  current_anim_name : String := ""
  current_frame_index : ℤ := 0
  current_frame_time : ℚ := 0
  playback_speed : ℚ := 1
  playing : Bool := false
  paused : Bool := false
  finished : Bool := false
  events : List AnimEvent := []

/-- Construction: a fresh controller bound to a (non-null) catalog. -/
def AnimationController.create (atlas : TextureAtlas) : AnimationController :=
  { atlas := atlas }

/-- `AnimationController::is_playing`. -/
def AnimationController.is_playing (c : AnimationController) : Bool :=
  c.playing && !c.paused

/-- `AnimationController::is_paused`. -/
def AnimationController.is_paused (c : AnimationController) : Bool := c.paused

/-- `AnimationController::is_finished`. -/
def AnimationController.is_finished (c : AnimationController) : Bool := c.finished

/-- `AnimationController::has_animation`. -/
def AnimationController.has_animation (c : AnimationController) : Bool :=
  c.current_anim.isSome

/-- `AnimationController::get_frame_count` (returns `int` in C++). -/
def AnimationController.get_frame_count (c : AnimationController) : ℤ :=
  match c.current_anim with
  | some a => (a.get_frame_count : ℤ)
  | none => 0

/-- `AnimationController::stop`. -/
def AnimationController.stop (c : AnimationController) : AnimationController :=
  { c with playing := false, paused := false, finished := true,
           current_anim := none, current_anim_name := "",
           current_frame_index := 0, current_frame_time := 0 }

/-- `AnimationController::play`.  The C++ compares the looked-up
`AnimationData*` with the stored pointer; since both pointers always come
from the same stable per-name map entry, pointer equality holds exactly
when an animation is bound and its name equals `animation_name`. -/
def AnimationController.play (c : AnimationController) (animation_name : String)
    (restart : Bool) : AnimationController :=
  match c.atlas.get_animation animation_name with
  | none => c.stop
  | some anim =>
    let same_anim : Bool := c.current_anim.isSome && (c.current_anim_name == animation_name)
    if same_anim && c.playing && !restart then
      c
    else
      let c1 := { c with current_anim := some anim, current_anim_name := animation_name }
      let c2 :=
        if restart || !same_anim then
          { c1 with current_frame_index := 0, current_frame_time := 0 }
        else c1
      { c2 with playing := true, paused := false, finished := false }

/-- `AnimationController::pause`. -/
def AnimationController.pause (c : AnimationController) : AnimationController :=
  if c.playing then { c with paused := true } else c

/-- `AnimationController::resume`. -/
def AnimationController.resume (c : AnimationController) : AnimationController :=
  if c.playing then { c with paused := false } else c

/-- `AnimationController::reset`. -/
def AnimationController.reset (c : AnimationController) : AnimationController :=
  { c with current_frame_index := 0, current_frame_time := 0, finished := false }

/-- `AnimationController::get_current_frame_duration`. -/
def AnimationController.get_current_frame_duration (c : AnimationController) : ℚ :=
  match c.current_anim with
  | none => 0
  | some a => a.get_duration c.current_frame_index

/-- `AnimationController::advance_frame`. -/
def AnimationController.advance_frame (c : AnimationController) : AnimationController :=
  match c.current_anim with
  | none => c
  | some anim =>
    let previous_frame := c.current_frame_index
    let idx := c.current_frame_index + 1
    if idx ≥ (anim.get_frame_count : ℤ) then
      if anim.loop then
        let c1 := { c with current_frame_index := 0,
                           events := c.events ++ [AnimEvent.animationLoop] }
        if (0:ℤ) ≠ previous_frame then
          { c1 with events := c1.events ++ [AnimEvent.frameChange 0] }
        else c1
      else
        { c with current_frame_index := (anim.get_frame_count : ℤ) - 1,
                 playing := false, finished := true,
                 events := c.events ++ [AnimEvent.animationEnd] }
    else
      let c1 := { c with current_frame_index := idx }
      if idx ≠ previous_frame then
        { c1 with events := c1.events ++ [AnimEvent.frameChange idx] }
      else c1

/-- The source's precision-stall tolerance `epsilon = 1e-6f`. -/
def epsilon : ℚ := 1 / 1000000

/-- The source's frame-advance safety cap `max_steps = 2048`. -/
def max_steps : ℕ := 2048

/-- The `while (playing && safety < max_steps)` loop of
`AnimationController::update`, with the remaining budget
`fuel = max_steps - safety` made explicit; returns the final state
together with the number of loop iterations performed. -/
def AnimationController.update_loop :
    AnimationController → ℚ → ℕ → AnimationController × ℕ
  | c, _, 0 => (c, 0)
  | c, frame_duration, fuel + 1 =>
    if !c.playing then (c, 0)
    else if frame_duration ≤ 0 then
      let c1 := c.advance_frame
      let r := c1.update_loop c1.get_current_frame_duration fuel
      (r.1, r.2 + 1)
    else if c.current_frame_time + epsilon < frame_duration then (c, 0)
    else
      let c1 := { c with current_frame_time := c.current_frame_time - frame_duration }
      let c2 := c1.advance_frame
      let r := c2.update_loop c2.get_current_frame_duration fuel
      (r.1, r.2 + 1)

/-- `AnimationController::update`. -/
def AnimationController.update (c : AnimationController) (dt : ℚ) : AnimationController :=
  if !c.playing || c.paused || c.current_anim.isNone || c.finished then c
  else
    let dt1 := dt * c.playback_speed
    let c1 := { c with current_frame_time := c.current_frame_time + dt1 }
    (c1.update_loop c1.get_current_frame_duration max_steps).1

/-- Number of frame-advance loop iterations performed by a call to
`AnimationController::update`. -/
def AnimationController.update_steps (c : AnimationController) (dt : ℚ) : ℕ :=
  if !c.playing || c.paused || c.current_anim.isNone || c.finished then 0
  else
    let dt1 := dt * c.playback_speed
    let c1 := { c with current_frame_time := c.current_frame_time + dt1 }
    (c1.update_loop c1.get_current_frame_duration max_steps).2

/-- `AnimationController::set_frame`; `std::clamp(v, 0, frame_count - 1)`
written out as its definition. -/
def AnimationController.set_frame (c : AnimationController) (frame_index : ℤ) :
    AnimationController :=
  match c.current_anim with
  | none => c
  | some anim =>
    let frame_count : ℤ := (anim.get_frame_count : ℤ)
    let clamped : ℤ :=
      if frame_index < 0 then 0
      else if frame_count - 1 < frame_index then frame_count - 1
      else frame_index
    { c with current_frame_index := clamped, current_frame_time := 0 }

/-- `AnimationController::get_progress`.  The C++ computes the division in
`float`; `ℚ` stands in for `float` here, so the `frame_count == 1` case
(divisor `0`) is where the embedding and IEEE arithmetic part ways. -/
def AnimationController.get_progress (c : AnimationController) : ℚ :=
  match c.current_anim with
  | none => 0
  | some anim =>
    if anim.get_frame_count = 0 then 0
    else (c.current_frame_index : ℚ) / ((anim.get_frame_count : ℚ) - 1)

/-- `TransitionCondition` from `animation_state_machine.h`. -/
inductive TransitionCondition where
  | Immediate
  | OnFinish
  | CanInterrupt
deriving DecidableEq

/-- `AnimationState`: a named state with an interrupt priority. -/
structure AnimationState where
  name : String
  priority : ℤ := 0
deriving DecidableEq

/-- `AnimationTransition`: a registered edge.  The opaque
`std::function<bool()>` predicate is modelled by the value it returns this
tick (`none` = no predicate installed). -/
structure AnimationTransition where
  from_state : String
  to_state : String
  condition : TransitionCondition := TransitionCondition.Immediate
  predicate : Option Bool := none
deriving DecidableEq

/-- `AnimationStateMachine` state: the driven controller, the registered
states (name-indexed, as the `unordered_map`), the registered transition
list, the current state name and the single pending slot. -/
structure AnimationStateMachine where
  controller : AnimationController
  states : String → Option AnimationState := fun _ => none
  transitions : List AnimationTransition := []
  current_state_name : String := ""
  pending_state_name : String := ""

/-- `AnimationStateMachine::add_state` (duplicate names overwrite). -/
def AnimationStateMachine.add_state (sm : AnimationStateMachine) (name : String)
    (priority : ℤ) : AnimationStateMachine :=
  { sm with states := fun n => if n = name then some ⟨name, priority⟩ else sm.states n }

/-- `AnimationStateMachine::add_transition`. -/
def AnimationStateMachine.add_transition (sm : AnimationStateMachine)
    (from_state to_state : String) (condition : TransitionCondition)
    (predicate : Option Bool) : AnimationStateMachine :=
  { sm with transitions := sm.transitions ++ [⟨from_state, to_state, condition, predicate⟩] }

/-- `AnimationStateMachine::get_current_priority` (unregistered current
state defaults to priority 0). -/
def AnimationStateMachine.get_current_priority (sm : AnimationStateMachine) : ℤ :=
  match sm.states sm.current_state_name with
  | some s => s.priority
  | none => 0

/-- `AnimationStateMachine::can_transition`: allowed iff the destination is
registered and its priority is ≥ the current one. -/
def AnimationStateMachine.can_transition (sm : AnimationStateMachine)
    (to_state : String) : Bool :=
  let current_priority := sm.get_current_priority
  match sm.states to_state with
  | none => false
  | some s => decide (s.priority ≥ current_priority)

/-- `AnimationStateMachine::execute_transition`: set the current state and
restart its animation. -/
def AnimationStateMachine.execute_transition (sm : AnimationStateMachine)
    (to_state : String) : AnimationStateMachine :=
  { sm with current_state_name := to_state,
            controller := sm.controller.play to_state true }

/-- `AnimationStateMachine::transition_to`. -/
def AnimationStateMachine.transition_to (sm : AnimationStateMachine)
    (state_name : String) (force : Bool) : AnimationStateMachine :=
  if (sm.states state_name).isNone then sm
  else if sm.current_state_name == state_name && !force then sm
  else if force then
    let sm1 := sm.execute_transition state_name
    { sm1 with pending_state_name := "" }
  else if !(sm.can_transition state_name) then
    { sm with pending_state_name := state_name }
  else
    sm.execute_transition state_name

/-- The `switch (transition.condition)` of `AnimationStateMachine::update`. -/
def AnimationStateMachine.should_transition (sm : AnimationStateMachine)
    (t : AnimationTransition) : Bool :=
  match t.condition with
  | TransitionCondition.Immediate => true
  | TransitionCondition.OnFinish => sm.controller.is_finished
  | TransitionCondition.CanInterrupt => sm.can_transition t.to_state

/-- The transition-scan loop of `AnimationStateMachine::update`: first
registered edge leaving the current state whose predicate does not veto and
whose condition holds (the C++ executes it and returns). -/
def AnimationStateMachine.first_transition (sm : AnimationStateMachine) :
    List AnimationTransition → Option AnimationTransition
  | [] => none
  | t :: ts =>
    if t.from_state ≠ sm.current_state_name then sm.first_transition ts
    else if t.predicate = some false then sm.first_transition ts
    else if sm.should_transition t then some t
    else sm.first_transition ts

/-- `AnimationStateMachine::update`: controller stepping, then at most one
automatic transition, else the pending drain once the controller reports
finished. -/
def AnimationStateMachine.update (sm : AnimationStateMachine) (dt : ℚ) :
    AnimationStateMachine :=
  let sm1 := { sm with controller := sm.controller.update dt }
  match sm1.first_transition sm1.transitions with
  | some t => sm1.execute_transition t.to_state
  | none =>
    if !sm1.pending_state_name.isEmpty && sm1.controller.is_finished then
      let sm2 := sm1.execute_transition sm1.pending_state_name
      { sm2 with pending_state_name := "" }
    else sm1

/-- `get_pending_state` accessor. -/
def AnimationStateMachine.get_pending_state (sm : AnimationStateMachine) : String :=
  sm.pending_state_name

/-- `has_pending_transition` accessor. -/
def AnimationStateMachine.has_pending_transition (sm : AnimationStateMachine) : Bool :=
  !sm.pending_state_name.isEmpty

/-! Concrete fixtures and invariant definitions used by the claims. -/

/-- Two-frame looping animation with uniform duration 1. -/
def walkAnim : AnimationData :=
  { name := "walk", frame_names := ["f0", "f1"], frame_duration := 1 }

def walkAtlas : TextureAtlas :=
  ⟨fun n => if n = "walk" then some walkAnim else none⟩

/-- Two-frame looping animation whose uniform duration equals the
stepping epsilon. -/
def tinyAnim : AnimationData :=
  { name := "tiny", frame_names := ["f0", "f1"], frame_duration := 1 / 1000000 }

def tinyAtlas : TextureAtlas :=
  ⟨fun n => if n = "tiny" then some tinyAnim else none⟩

/-- Two-frame looping animation with uniform duration 0 (degenerate). -/
def zeroAnim : AnimationData :=
  { name := "zero", frame_names := ["f0", "f1"], frame_duration := 0 }

def zeroAtlas : TextureAtlas :=
  ⟨fun n => if n = "zero" then some zeroAnim else none⟩

def zeroCtl : AnimationController := (AnimationController.create zeroAtlas).play "zero" false

/-- Three-frame non-looping animation with uniform duration 1. -/
def onceAnim : AnimationData :=
  { name := "once", frame_names := ["f0", "f1", "f2"], frame_duration := 1, loop := false }

def onceAtlas : TextureAtlas :=
  ⟨fun n => if n = "once" then some onceAnim else none⟩

/-- Non-looping animation with 2049 frames (one more than the step cap). -/
def bigAnim : AnimationData :=
  { name := "big", frame_names := List.replicate 2049 "f", frame_duration := 1, loop := false }

def bigAtlas : TextureAtlas :=
  ⟨fun n => if n = "big" then some bigAnim else none⟩

/-- Two-frame non-looping animation with uniform duration 1. -/
def once2Anim : AnimationData :=
  { name := "once2", frame_names := ["f0", "f1"], frame_duration := 1, loop := false }

def once2Atlas : TextureAtlas :=
  ⟨fun n => if n = "once2" then some once2Anim else none⟩

/-- One-frame animation. -/
def singleAnim : AnimationData :=
  { name := "single", frame_names := ["f0"], frame_duration := 1 }

def singleAtlas : TextureAtlas :=
  ⟨fun n => if n = "single" then some singleAnim else none⟩

def singleCtl : AnimationController :=
  (AnimationController.create singleAtlas).play "single" false

/-- The spec's playback invariants: `finished ⇒ ¬playing`;
`0 ≤ frame_index < frame_count` whenever an animation is bound;
`paused ⇒ playing`. -/
def ControllerInv (c : AnimationController) : Prop :=
  (c.finished = true → c.playing = false) ∧
  (∀ a, c.current_anim = some a →
    0 ≤ c.current_frame_index ∧ c.current_frame_index < (a.get_frame_count : ℤ)) ∧
  (c.paused = true → c.playing = true)

/-- The bound animation is the catalog entry for the bound name.  In the
C++ this is the pointer-stability fact behind `previous_anim == anim`:
`current_anim` always points at the atlas map entry for
`current_anim_name`. -/
def AtlasCoherent (c : AnimationController) : Prop :=
  ∀ a, c.current_anim = some a →
    c.atlas.get_animation c.current_anim_name = some a

/-- The spec's precondition that any animation actually played has a
non-empty frame list, as a property of the catalog. -/
def NonemptyCatalog (t : TextureAtlas) : Prop :=
  ∀ n a, t.get_animation n = some a → 0 < a.get_frame_count

/-- Empty catalog used by the state machine fixtures (`play` then degrades
to `stop`, which none of the scheduling claims depend on). -/
def smAtlas : TextureAtlas := ⟨fun _ => none⟩

/-- Machine with a pending request, a finished controller and no
registered transitions. -/
def smW : AnimationStateMachine :=
  { controller := { atlas := smAtlas, finished := true }
    states := fun _ => none
    transitions := []
    current_state_name := "a"
    pending_state_name := "p" }

/-- Machine with a pending request `"p"`, a finished controller and an
`Immediate` automatic transition out of the current state. -/
def smC2 : AnimationStateMachine :=
  { controller := { atlas := smAtlas, finished := true }
    states := fun n =>
      if n = "a" then some ⟨"a", 0⟩
      else if n = "b" then some ⟨"b", 0⟩
      else if n = "p" then some ⟨"p", 0⟩ else none
    transitions := [⟨"a", "b", TransitionCondition.Immediate, none⟩]
    current_state_name := "a"
    pending_state_name := "p" }

/-- Machine with three registered states of priorities 0/3/5, currently in
the priority-3 state. -/
def smP : AnimationStateMachine :=
  { controller := { atlas := smAtlas }
    states := fun n =>
      if n = "idle" then some ⟨"idle", 0⟩
      else if n = "attack" then some ⟨"attack", 3⟩
      else if n = "super" then some ⟨"super", 5⟩ else none
    transitions := []
    current_state_name := "attack"
    pending_state_name := "" }

/-- Machine with a pending request, equal-priority states `a`, `b` and an
`Immediate` automatic transition `a → b`. -/
def smQ : AnimationStateMachine :=
  { controller := { atlas := smAtlas, finished := true }
    states := fun n =>
      if n = "a" then some ⟨"a", 0⟩
      else if n = "b" then some ⟨"b", 0⟩ else none
    transitions := [⟨"a", "b", TransitionCondition.Immediate, none⟩]
    current_state_name := "a"
    pending_state_name := "p" }

/-! Lemmas and claim theorems. -/

/-! Basic facts about the embedded operations. -/

lemma epsilon_pos : (0:ℚ) < epsilon := by norm_num [epsilon]

/-- With no per-frame overrides every index resolves to the default duration. -/
lemma AnimationData.get_duration_uniform (a : AnimationData) (hu : a.frame_durations = [])
    (i : ℤ) : a.get_duration i = a.frame_duration := by
  simp [AnimationData.get_duration, hu]

lemma get_current_frame_duration_uniform (c : AnimationController) (a : AnimationData)
    (h : c.current_anim = some a) (hu : a.frame_durations = []) :
    c.get_current_frame_duration = a.frame_duration := by
  simp [AnimationController.get_current_frame_duration, h,
    AnimationData.get_duration_uniform a hu]

/-! One-iteration unfolding lemmas for the frame-advance loop. -/

lemma update_loop_fuel_zero (c : AnimationController) (fd : ℚ) :
    c.update_loop fd 0 = (c, 0) := rfl

lemma update_loop_not_playing (c : AnimationController) (fd : ℚ) (fuel : ℕ)
    (hp : c.playing = false) : c.update_loop fd fuel = (c, 0) := by
  cases fuel with
  | zero => rfl
  | succ f => simp [AnimationController.update_loop, hp]

lemma update_loop_degenerate (c : AnimationController) (fd : ℚ) (fuel : ℕ)
    (hp : c.playing = true) (hfd : fd ≤ 0) :
    c.update_loop fd (fuel + 1) =
      ((c.advance_frame.update_loop c.advance_frame.get_current_frame_duration fuel).1,
       (c.advance_frame.update_loop c.advance_frame.get_current_frame_duration fuel).2 + 1) := by
  simp [AnimationController.update_loop, hp, hfd]

lemma update_loop_break (c : AnimationController) (fd : ℚ) (fuel : ℕ)
    (hp : c.playing = true) (hfd : ¬ fd ≤ 0)
    (hbr : c.current_frame_time + epsilon < fd) :
    c.update_loop fd (fuel + 1) = (c, 0) := by
  simp [AnimationController.update_loop, hp, hfd, hbr]

lemma update_loop_consume (c : AnimationController) (fd : ℚ) (fuel : ℕ)
    (hp : c.playing = true) (hfd : ¬ fd ≤ 0)
    (hbr : ¬ (c.current_frame_time + epsilon < fd)) :
    c.update_loop fd (fuel + 1) =
      ((({ c with current_frame_time := c.current_frame_time - fd }).advance_frame.update_loop
          ({ c with current_frame_time := c.current_frame_time - fd }).advance_frame.get_current_frame_duration fuel).1,
       (({ c with current_frame_time := c.current_frame_time - fd }).advance_frame.update_loop
          ({ c with current_frame_time := c.current_frame_time - fd }).advance_frame.get_current_frame_duration fuel).2 + 1) := by
  simp [AnimationController.update_loop, hp, hfd, hbr]

lemma update_loop_break_fst (c : AnimationController) (fd : ℚ) (fuel : ℕ)
    (hp : c.playing = true) (hfd : ¬ fd ≤ 0)
    (hbr : c.current_frame_time + epsilon < fd) :
    (c.update_loop fd (fuel + 1)).1 = c := by
  rw [update_loop_break c fd fuel hp hfd hbr]

lemma update_loop_degenerate_fst (c : AnimationController) (fd : ℚ) (fuel : ℕ)
    (hp : c.playing = true) (hfd : fd ≤ 0) :
    (c.update_loop fd (fuel + 1)).1 =
      (c.advance_frame.update_loop c.advance_frame.get_current_frame_duration fuel).1 := by
  rw [update_loop_degenerate c fd fuel hp hfd]

lemma update_loop_consume_fst (c : AnimationController) (fd : ℚ) (fuel : ℕ)
    (hp : c.playing = true) (hfd : ¬ fd ≤ 0)
    (hbr : ¬ (c.current_frame_time + epsilon < fd)) :
    (c.update_loop fd (fuel + 1)).1 =
      (({ c with current_frame_time := c.current_frame_time - fd }).advance_frame.update_loop
        ({ c with current_frame_time :=
            c.current_frame_time - fd }).advance_frame.get_current_frame_duration fuel).1 := by
  rw [update_loop_consume c fd fuel hp hfd hbr]

/-- Advancing strictly inside the frame list: the index increments and all
other playback fields are untouched. -/
lemma advance_frame_mid (c : AnimationController) (a : AnimationData)
    (h : c.current_anim = some a)
    (hlt : c.current_frame_index + 1 < (a.get_frame_count : ℤ)) :
    c.advance_frame.current_anim = some a ∧
    c.advance_frame.current_anim_name = c.current_anim_name ∧
    c.advance_frame.current_frame_index = c.current_frame_index + 1 ∧
    c.advance_frame.current_frame_time = c.current_frame_time ∧
    c.advance_frame.playback_speed = c.playback_speed ∧
    c.advance_frame.playing = c.playing ∧
    c.advance_frame.paused = c.paused ∧
    c.advance_frame.finished = c.finished ∧
    c.advance_frame.events.count AnimEvent.animationEnd
      = c.events.count AnimEvent.animationEnd := by
  have hnot : ¬ c.current_frame_index + 1 ≥ (a.get_frame_count : ℤ) := by omega
  simp [AnimationController.advance_frame, h, hnot]

/-- Advancing past the last frame of a looping animation: the index wraps
to `(i+1) % N` and all other playback fields are untouched. -/
lemma advance_frame_loop_wrap (c : AnimationController) (a : AnimationData)
    (h : c.current_anim = some a) (hl : a.loop = true)
    (h0 : 0 ≤ c.current_frame_index)
    (hN : c.current_frame_index < (a.get_frame_count : ℤ)) :
    c.advance_frame.current_anim = some a ∧
    c.advance_frame.current_anim_name = c.current_anim_name ∧
    c.advance_frame.current_frame_index
      = (c.current_frame_index + 1) % (a.get_frame_count : ℤ) ∧
    c.advance_frame.current_frame_time = c.current_frame_time ∧
    c.advance_frame.playback_speed = c.playback_speed ∧
    c.advance_frame.playing = c.playing ∧
    c.advance_frame.paused = c.paused ∧
    c.advance_frame.finished = c.finished ∧
    c.advance_frame.events.count AnimEvent.animationEnd
      = c.events.count AnimEvent.animationEnd := by
  by_cases hge : c.current_frame_index + 1 ≥ (a.get_frame_count : ℤ)
  · have heq : c.current_frame_index + 1 = (a.get_frame_count : ℤ) := by omega
    have hmod : (c.current_frame_index + 1) % (a.get_frame_count : ℤ) = 0 := by
      rw [heq, Int.emod_self]
    by_cases hprev : (0:ℤ) ≠ c.current_frame_index <;>
      simp [AnimationController.advance_frame, h, hge, hl, hprev, hmod,
        List.count_append]
  · have hmod : (c.current_frame_index + 1) % (a.get_frame_count : ℤ)
        = c.current_frame_index + 1 :=
      Int.emod_eq_of_lt (by omega) (by omega)
    have := advance_frame_mid c a h (by omega)
    rw [hmod]
    exact this

/-- Advancing past the last frame of a non-looping animation: clamp to the
last index, stop, finish, and record exactly one end-callback invocation. -/
lemma advance_frame_finish (c : AnimationController) (a : AnimationData)
    (h : c.current_anim = some a) (hl : a.loop = false)
    (hge : c.current_frame_index + 1 ≥ (a.get_frame_count : ℤ)) :
    c.advance_frame.current_anim = some a ∧
    c.advance_frame.current_anim_name = c.current_anim_name ∧
    c.advance_frame.current_frame_index = (a.get_frame_count : ℤ) - 1 ∧
    c.advance_frame.current_frame_time = c.current_frame_time ∧
    c.advance_frame.playback_speed = c.playback_speed ∧
    c.advance_frame.playing = false ∧
    c.advance_frame.paused = c.paused ∧
    c.advance_frame.finished = true ∧
    c.advance_frame.events.count AnimEvent.animationEnd
      = c.events.count AnimEvent.animationEnd + 1 := by
  simp [AnimationController.advance_frame, h, hge, hl, List.count_append]

/-- The iteration count of the advance loop never exceeds its fuel. -/
lemma update_loop_steps_le (fuel : ℕ) : ∀ (c : AnimationController) (fd : ℚ),
    (c.update_loop fd fuel).2 ≤ fuel := by
  induction fuel with
  | zero => intro c fd; rw [update_loop_fuel_zero]
  | succ f ih =>
    intro c fd
    by_cases hp : c.playing = true
    · by_cases hfd : fd ≤ 0
      · rw [update_loop_degenerate c fd f hp hfd]
        have := ih c.advance_frame c.advance_frame.get_current_frame_duration
        simpa using Nat.add_le_add_right this 1
      · by_cases hbr : c.current_frame_time + epsilon < fd
        · rw [update_loop_break c fd f hp hfd hbr]
          exact Nat.zero_le _
        · rw [update_loop_consume c fd f hp hfd hbr]
          have := ih ({ c with current_frame_time := c.current_frame_time - fd }).advance_frame
            ({ c with current_frame_time := c.current_frame_time - fd }).advance_frame.get_current_frame_duration
          simpa using Nat.add_le_add_right this 1
    · rw [update_loop_not_playing c fd (f + 1) (by simpa using hp)]
      exact Nat.zero_le _

/-- Uniform looping animation, elapsed time the exact multiple `m·d` with
`d > ε` and enough fuel: exactly `m` frames are consumed and the index
wraps modulo the frame count, ending with zero elapsed time. -/
lemma update_loop_uniform_loop_run (a : AnimationData) (hl : a.loop = true)
    (hu : a.frame_durations = []) (hd : epsilon < a.frame_duration) :
    ∀ (m fuel : ℕ) (c : AnimationController), m ≤ fuel →
      c.current_anim = some a → c.playing = true →
      c.current_frame_time = (m : ℚ) * a.frame_duration →
      0 ≤ c.current_frame_index →
      c.current_frame_index < (a.get_frame_count : ℤ) →
      (c.update_loop c.get_current_frame_duration fuel).1.current_frame_index
        = (c.current_frame_index + (m : ℤ)) % (a.get_frame_count : ℤ) := by
  have hdpos : 0 < a.frame_duration := lt_trans epsilon_pos hd
  intro m
  induction m with
  | zero =>
    intro fuel c _ hanim hp htime h0 hN
    have hfd : c.get_current_frame_duration = a.frame_duration :=
      get_current_frame_duration_uniform c a hanim hu
    have hres : (c.update_loop c.get_current_frame_duration fuel).1 = c := by
      cases fuel with
      | zero => rw [update_loop_fuel_zero]
      | succ f =>
        rw [hfd, update_loop_break c _ f hp (not_le.mpr hdpos)
          (by rw [htime]; push_cast; linarith)]
    rw [hres]
    push_cast
    rw [add_zero, Int.emod_eq_of_lt h0 hN]
  | succ n ih =>
    intro fuel c hmf hanim hp htime h0 hN
    obtain ⟨f, rfl⟩ : ∃ f, fuel = f + 1 := ⟨fuel - 1, by omega⟩
    have hfd : c.get_current_frame_duration = a.frame_duration :=
      get_current_frame_duration_uniform c a hanim hu
    have hbr : ¬ (c.current_frame_time + epsilon < a.frame_duration) := by
      rw [htime]; push_cast
      nlinarith [epsilon_pos]
    rw [hfd, update_loop_consume c _ f hp (not_le.mpr hdpos) hbr]
    have hw := advance_frame_loop_wrap
      { c with current_frame_time := c.current_frame_time - a.frame_duration } a hanim hl h0 hN
    obtain ⟨w_anim, -, w_idx, w_time, -, w_play, -, -, -⟩ := hw
    have hNpos : 0 < (a.get_frame_count : ℤ) := by omega
    have h0' : 0 ≤ (c.current_frame_index + 1) % (a.get_frame_count : ℤ) :=
      Int.emod_nonneg _ (by omega)
    have hN' : (c.current_frame_index + 1) % (a.get_frame_count : ℤ)
        < (a.get_frame_count : ℤ) := Int.emod_lt_of_pos _ hNpos
    have htime' : ({ c with current_frame_time :=
        c.current_frame_time - a.frame_duration }).advance_frame.current_frame_time
        = (n : ℚ) * a.frame_duration := by
      rw [w_time]
      show c.current_frame_time - a.frame_duration = _
      rw [htime]; push_cast; ring
    have := ih f _ (by omega) w_anim (by rw [w_play]; exact hp) htime'
      (by rw [w_idx]; exact h0') (by rw [w_idx]; exact hN')
    rw [this, w_idx, Int.emod_add_emod]
    push_cast
    ring_nf

/-- Uniform looping animation with elapsed time at least `fuel` whole
frames: the loop exhausts its fuel, advancing exactly `fuel` frames. -/
lemma update_loop_uniform_loop_cap (a : AnimationData) (hl : a.loop = true)
    (hu : a.frame_durations = []) (hdpos : 0 < a.frame_duration) :
    ∀ (fuel m : ℕ) (c : AnimationController), fuel ≤ m →
      c.current_anim = some a → c.playing = true →
      c.current_frame_time = (m : ℚ) * a.frame_duration →
      0 ≤ c.current_frame_index →
      c.current_frame_index < (a.get_frame_count : ℤ) →
      (c.update_loop c.get_current_frame_duration fuel).1.current_frame_index
        = (c.current_frame_index + (fuel : ℤ)) % (a.get_frame_count : ℤ) := by
  intro fuel
  induction fuel with
  | zero =>
    intro m c _ _ _ _ h0 hN
    rw [update_loop_fuel_zero]
    push_cast
    rw [add_zero, Int.emod_eq_of_lt h0 hN]
  | succ f ih =>
    intro m c hmf hanim hp htime h0 hN
    obtain ⟨n, rfl⟩ : ∃ n, m = n + 1 := ⟨m - 1, by omega⟩
    have hfd : c.get_current_frame_duration = a.frame_duration :=
      get_current_frame_duration_uniform c a hanim hu
    have hbr : ¬ (c.current_frame_time + epsilon < a.frame_duration) := by
      rw [htime]; push_cast
      nlinarith [epsilon_pos]
    rw [hfd, update_loop_consume c _ f hp (not_le.mpr hdpos) hbr]
    have hw := advance_frame_loop_wrap
      { c with current_frame_time := c.current_frame_time - a.frame_duration } a hanim hl h0 hN
    obtain ⟨w_anim, -, w_idx, w_time, -, w_play, -, -, -⟩ := hw
    have hNpos : 0 < (a.get_frame_count : ℤ) := by omega
    have htime' : ({ c with current_frame_time :=
        c.current_frame_time - a.frame_duration }).advance_frame.current_frame_time
        = (n : ℚ) * a.frame_duration := by
      rw [w_time]
      show c.current_frame_time - a.frame_duration = _
      rw [htime]; push_cast; ring
    have := ih n _ (by omega) w_anim (by rw [w_play]; exact hp) htime'
      (by rw [w_idx]; exact Int.emod_nonneg _ (by omega))
      (by rw [w_idx]; exact Int.emod_lt_of_pos _ hNpos)
    rw [this, w_idx, Int.emod_add_emod]
    push_cast
    ring_nf

/-- Uniform non-looping animation with enough elapsed time and fuel to
cross the last frame: the run clamps at the last index, stops, finishes,
and records exactly one end-callback invocation. -/
lemma update_loop_once_finish (a : AnimationData) (hl : a.loop = false)
    (hu : a.frame_durations = []) (hdpos : 0 < a.frame_duration) :
    ∀ (r m fuel : ℕ) (c : AnimationController),
      r + 1 ≤ m → r + 1 ≤ fuel →
      c.current_anim = some a → c.playing = true →
      c.current_frame_time = (m : ℚ) * a.frame_duration →
      c.current_frame_index = (a.get_frame_count : ℤ) - 1 - (r : ℤ) →
      0 ≤ c.current_frame_index →
      (c.update_loop c.get_current_frame_duration fuel).1.current_anim = some a ∧
      (c.update_loop c.get_current_frame_duration fuel).1.current_anim_name
        = c.current_anim_name ∧
      (c.update_loop c.get_current_frame_duration fuel).1.current_frame_index
        = (a.get_frame_count : ℤ) - 1 ∧
      (c.update_loop c.get_current_frame_duration fuel).1.playing = false ∧
      (c.update_loop c.get_current_frame_duration fuel).1.paused = c.paused ∧
      (c.update_loop c.get_current_frame_duration fuel).1.finished = true ∧
      (c.update_loop c.get_current_frame_duration fuel).1.events.count
          AnimEvent.animationEnd
        = c.events.count AnimEvent.animationEnd + 1 := by
  intro r
  induction r with
  | zero =>
    intro m fuel c hm hf hanim hp htime hidx h0
    obtain ⟨f, rfl⟩ : ∃ f, fuel = f + 1 := ⟨fuel - 1, by omega⟩
    obtain ⟨n, rfl⟩ : ∃ n, m = n + 1 := ⟨m - 1, by omega⟩
    have hfd : c.get_current_frame_duration = a.frame_duration :=
      get_current_frame_duration_uniform c a hanim hu
    have hbr : ¬ (c.current_frame_time + epsilon < a.frame_duration) := by
      rw [htime]; push_cast
      nlinarith [epsilon_pos]
    rw [hfd, update_loop_consume c _ f hp (not_le.mpr hdpos) hbr]
    have hfin := advance_frame_finish
      { c with current_frame_time := c.current_frame_time - a.frame_duration } a hanim hl
      (by show c.current_frame_index + 1 ≥ _; omega)
    obtain ⟨f_anim, f_name, f_idx, -, -, f_play, f_paused, f_fin, f_count⟩ := hfin
    rw [update_loop_not_playing _ _ f f_play]
    exact ⟨f_anim, f_name, f_idx, f_play, f_paused, f_fin, f_count⟩
  | succ r ih =>
    intro m fuel c hm hf hanim hp htime hidx h0
    obtain ⟨f, rfl⟩ : ∃ f, fuel = f + 1 := ⟨fuel - 1, by omega⟩
    obtain ⟨n, rfl⟩ : ∃ n, m = n + 1 := ⟨m - 1, by omega⟩
    have hfd : c.get_current_frame_duration = a.frame_duration :=
      get_current_frame_duration_uniform c a hanim hu
    have hbr : ¬ (c.current_frame_time + epsilon < a.frame_duration) := by
      rw [htime]; push_cast
      nlinarith [epsilon_pos]
    rw [hfd, update_loop_consume c _ f hp (not_le.mpr hdpos) hbr]
    have hmid := advance_frame_mid
      { c with current_frame_time := c.current_frame_time - a.frame_duration } a hanim
      (by show c.current_frame_index + 1 < _; omega)
    obtain ⟨m_anim, m_name, m_idx, m_time, -, m_play, m_paused, m_fin, m_count⟩ := hmid
    have htime' : ({ c with current_frame_time :=
        c.current_frame_time - a.frame_duration }).advance_frame.current_frame_time
        = (n : ℚ) * a.frame_duration := by
      rw [m_time]
      show c.current_frame_time - a.frame_duration = _
      rw [htime]; push_cast; ring
    have hidx' : ({ c with current_frame_time :=
        c.current_frame_time - a.frame_duration }).advance_frame.current_frame_index
        = (a.get_frame_count : ℤ) - 1 - (r : ℤ) := by
      rw [m_idx]
      show c.current_frame_index + 1 = _
      push_cast at hidx ⊢
      omega
    have := ih n f _ (by omega) (by omega) m_anim (by rw [m_play]; exact hp)
      htime' hidx' (by rw [hidx']; push_cast at hidx h0 ⊢; omega)
    obtain ⟨r_anim, r_name, r_idx, r_play, r_paused, r_fin, r_count⟩ := this
    refine ⟨r_anim, ?_, r_idx, r_play, ?_, r_fin, ?_⟩
    · rw [r_name, m_name]
    · rw [r_paused, m_paused]
    · rw [r_count, m_count]

/-- Uniform animation with elapsed time at least `fuel` whole frames but
the last frame out of reach within the fuel: the run advances exactly
`fuel` frames and the playback flags are untouched. -/
lemma update_loop_uniform_cap_no_finish (a : AnimationData)
    (hu : a.frame_durations = []) (hdpos : 0 < a.frame_duration) :
    ∀ (fuel m : ℕ) (c : AnimationController), fuel ≤ m →
      c.current_anim = some a → c.playing = true →
      c.current_frame_time = (m : ℚ) * a.frame_duration →
      0 ≤ c.current_frame_index →
      c.current_frame_index + (fuel : ℤ) ≤ (a.get_frame_count : ℤ) - 1 →
      (c.update_loop c.get_current_frame_duration fuel).1.current_frame_index
        = c.current_frame_index + (fuel : ℤ) ∧
      (c.update_loop c.get_current_frame_duration fuel).1.playing = true ∧
      (c.update_loop c.get_current_frame_duration fuel).1.paused = c.paused ∧
      (c.update_loop c.get_current_frame_duration fuel).1.finished = c.finished ∧
      (c.update_loop c.get_current_frame_duration fuel).1.events.count
          AnimEvent.animationEnd
        = c.events.count AnimEvent.animationEnd := by
  intro fuel
  induction fuel with
  | zero =>
    intro m c _ _ hp _ _ _
    rw [update_loop_fuel_zero]
    push_cast
    exact ⟨by rw [add_zero], hp, rfl, rfl, rfl⟩
  | succ f ih =>
    intro m c hmf hanim hp htime h0 hreach
    obtain ⟨n, rfl⟩ : ∃ n, m = n + 1 := ⟨m - 1, by omega⟩
    have hfd : c.get_current_frame_duration = a.frame_duration :=
      get_current_frame_duration_uniform c a hanim hu
    have hbr : ¬ (c.current_frame_time + epsilon < a.frame_duration) := by
      rw [htime]; push_cast
      nlinarith [epsilon_pos]
    rw [hfd, update_loop_consume c _ f hp (not_le.mpr hdpos) hbr]
    have hmid := advance_frame_mid
      { c with current_frame_time := c.current_frame_time - a.frame_duration } a hanim
      (by show c.current_frame_index + 1 < _; push_cast at hreach; omega)
    obtain ⟨m_anim, -, m_idx, m_time, -, m_play, m_paused, m_fin, m_count⟩ := hmid
    have htime' : ({ c with current_frame_time :=
        c.current_frame_time - a.frame_duration }).advance_frame.current_frame_time
        = (n : ℚ) * a.frame_duration := by
      rw [m_time]
      show c.current_frame_time - a.frame_duration = _
      rw [htime]; push_cast; ring
    have := ih n _ (by omega) m_anim (by rw [m_play]; exact hp) htime'
      (by rw [m_idx]; show 0 ≤ c.current_frame_index + 1; omega)
      (by rw [m_idx]; show c.current_frame_index + 1 + (f:ℤ) ≤ _; push_cast at hreach ⊢; omega)
    obtain ⟨r_idx, r_play, r_paused, r_fin, r_count⟩ := this
    refine ⟨?_, r_play, ?_, ?_, ?_⟩
    · rw [r_idx, m_idx]
      show c.current_frame_index + 1 + (f:ℤ) = _
      push_cast
      ring
    · rw [r_paused, m_paused]
    · rw [r_fin, m_fin]
    · rw [r_count, m_count]

/-- When the controller is active, `update` accumulates the scaled time
step and runs the advance loop with the full step budget. -/
lemma update_active (c : AnimationController) (dt : ℚ)
    (hp : c.playing = true) (hpa : c.paused = false)
    (hanim : c.current_anim.isSome = true) (hfin : c.finished = false) :
    c.update dt =
      (({ c with current_frame_time := c.current_frame_time + dt * c.playback_speed }).update_loop
        ({ c with current_frame_time :=
            c.current_frame_time + dt * c.playback_speed }).get_current_frame_duration
        max_steps).1 := by
  cases hca : c.current_anim with
  | none => rw [hca] at hanim; cases hanim
  | some a => simp [AnimationController.update, hp, hpa, hfin, hca]

lemma advance_frame_atlas (c : AnimationController) : c.advance_frame.atlas = c.atlas := by
  unfold AnimationController.advance_frame
  cases hca : c.current_anim with
  | none => rfl
  | some a => dsimp only; split_ifs <;> rfl

/-- `advance_frame` never touches the catalog binding, the bound name, the
pause flag, the elapsed time or the playback speed. -/
lemma advance_frame_fixed_fields (c : AnimationController) :
    c.advance_frame.atlas = c.atlas ∧
    c.advance_frame.current_anim = c.current_anim ∧
    c.advance_frame.current_anim_name = c.current_anim_name ∧
    c.advance_frame.paused = c.paused ∧
    c.advance_frame.current_frame_time = c.current_frame_time ∧
    c.advance_frame.playback_speed = c.playback_speed := by
  cases hca : c.current_anim with
  | none =>
    have heq : c.advance_frame = c := by
      unfold AnimationController.advance_frame
      rw [hca]
    rw [heq]
    exact ⟨rfl, hca, rfl, rfl, rfl, rfl⟩
  | some a =>
    unfold AnimationController.advance_frame
    rw [hca]
    dsimp only
    split_ifs <;> simp [hca]

lemma update_loop_atlas (fuel : ℕ) : ∀ (c : AnimationController) (fd : ℚ),
    (c.update_loop fd fuel).1.atlas = c.atlas := by
  induction fuel with
  | zero => intro c fd; rw [update_loop_fuel_zero]
  | succ f ih =>
    intro c fd
    by_cases hp : c.playing = true
    · by_cases hfd : fd ≤ 0
      · rw [update_loop_degenerate c fd f hp hfd]
        have h1 := ih c.advance_frame c.advance_frame.get_current_frame_duration
        rw [advance_frame_atlas] at h1
        exact h1
      · by_cases hbr : c.current_frame_time + epsilon < fd
        · rw [update_loop_break c fd f hp hfd hbr]
        · rw [update_loop_consume c fd f hp hfd hbr]
          have h1 := ih ({ c with current_frame_time := c.current_frame_time - fd }).advance_frame
            ({ c with current_frame_time :=
                c.current_frame_time - fd }).advance_frame.get_current_frame_duration
          rw [advance_frame_atlas] at h1
          exact h1
    · rw [update_loop_not_playing c fd (f + 1) (by simpa using hp)]

lemma update_atlas (c : AnimationController) (dt : ℚ) : (c.update dt).atlas = c.atlas := by
  unfold AnimationController.update
  split_ifs with h
  · rfl
  · exact update_loop_atlas max_steps _ _

/-- Fresh `play` of a known animation from a just-constructed controller. -/
lemma play_from_fresh (atlas : TextureAtlas) (name : String) (a : AnimationData)
    (h : atlas.get_animation name = some a) :
    (AnimationController.create atlas).play name false =
      { atlas := atlas, current_anim := some a, current_anim_name := name,
        current_frame_index := 0, current_frame_time := 0, playback_speed := 1,
        playing := true, paused := false, finished := false, events := [] } := by
  simp [AnimationController.play, AnimationController.create, h]

/-- A controller at frame 0 with elapsed time 0 over a uniform animation
whose duration is exactly `epsilon`: the advance loop consumes one frame
(the break test `time + epsilon < duration` fails at 0) and then breaks. -/
lemma update_loop_tiny_two_steps (a : AnimationData) (hu : a.frame_durations = [])
    (hd : a.frame_duration = epsilon) (hN : 2 ≤ a.get_frame_count)
    (c : AnimationController) (fuel : ℕ) (hanim : c.current_anim = some a)
    (hp : c.playing = true) (htime : c.current_frame_time = 0)
    (hidx : c.current_frame_index = 0) :
    (c.update_loop c.get_current_frame_duration (fuel + 2)).1.current_frame_index = 1 := by
  have hdpos : 0 < a.frame_duration := by rw [hd]; exact epsilon_pos
  have hfd : c.get_current_frame_duration = a.frame_duration :=
    get_current_frame_duration_uniform c a hanim hu
  have hbr1 : ¬ (c.current_frame_time + epsilon < a.frame_duration) := by
    rw [htime, hd]; simp
  rw [hfd, show fuel + 2 = (fuel + 1) + 1 from rfl,
    update_loop_consume_fst c _ (fuel + 1) hp (not_le.mpr hdpos) hbr1]
  have hmid := advance_frame_mid
    { c with current_frame_time := c.current_frame_time - a.frame_duration } a hanim
    (by show c.current_frame_index + 1 < (a.get_frame_count : ℤ)
        rw [hidx]
        exact_mod_cast hN)
  obtain ⟨z_anim, -, z_idx, z_time, -, z_play, -, -, -⟩ := hmid
  have hzfd := get_current_frame_duration_uniform _ a z_anim hu
  have hbr2 : ({ c with current_frame_time :=
      c.current_frame_time - a.frame_duration }).advance_frame.current_frame_time
      + epsilon < a.frame_duration := by
    rw [z_time]
    show c.current_frame_time - a.frame_duration + epsilon < a.frame_duration
    rw [htime, hd]
    have := epsilon_pos
    linarith
  rw [hzfd, update_loop_break_fst _ _ fuel (by rw [z_play]; exact hp)
    (not_le.mpr hdpos) hbr2, z_idx]
  show c.current_frame_index + 1 = 1
  rw [hidx]
  norm_num

/-- A fresh controller over a uniform animation of duration exactly
`epsilon` advances a frame even on a zero time step. -/
lemma update_zero_tiny_duration (a : AnimationData) (hu : a.frame_durations = [])
    (hd : a.frame_duration = epsilon) (hN : 2 ≤ a.get_frame_count)
    (c : AnimationController) (hanim : c.current_anim = some a)
    (hp : c.playing = true) (hpa : c.paused = false) (hfin : c.finished = false)
    (htime : c.current_frame_time = 0) (hidx : c.current_frame_index = 0)
    (dt : ℚ) (hdt : dt = 0) :
    (c.update dt).current_frame_index = 1 := by
  rw [update_active c dt hp hpa (by rw [hanim]; rfl) hfin]
  exact update_loop_tiny_two_steps a hu hd hN
    { c with current_frame_time := c.current_frame_time + dt * c.playback_speed }
    2046 hanim hp
    (by show c.current_frame_time + dt * c.playback_speed = 0
        rw [htime, hdt]; ring)
    hidx

/-- Claim C1, amended: for an animation of `N ≥ 1` frames with uniform
default duration `d` strictly above the stepping epsilon, no per-frame
overrides and `loop = true`, freshly started via `play` (frame 0, elapsed
time 0, speed 1), a single call `update(k·d)` with `0 ≤ k ≤ 2048` leaves
`frame_index = k mod N`.  (The unamended claim fails once `k` exceeds the
2048-iteration safety cap and when `d ≤ epsilon`.) -/
theorem C1_uniform_loop_frame_mod (atlas : TextureAtlas) (name : String)
    (a : AnimationData) (k : ℕ)
    (ha : atlas.get_animation name = some a)
    (hN : 1 ≤ a.get_frame_count)
    (hl : a.loop = true) (hu : a.frame_durations = [])
    (hd : epsilon < a.frame_duration) (hk : k ≤ max_steps) :
    (((AnimationController.create atlas).play name false).update
        ((k : ℚ) * a.frame_duration)).current_frame_index
      = (k : ℤ) % (a.get_frame_count : ℤ) := by
  rw [play_from_fresh atlas name a ha]
  rw [update_active
    { atlas := atlas, current_anim := some a, current_anim_name := name,
      current_frame_index := 0, current_frame_time := 0, playback_speed := 1,
      playing := true, paused := false, finished := false, events := [] }
    ((k : ℚ) * a.frame_duration) rfl rfl rfl rfl]
  have hrun := update_loop_uniform_loop_run a hl hu hd k max_steps
    { atlas := atlas, current_anim := some a, current_anim_name := name,
      current_frame_index := 0,
      current_frame_time := 0 + (k : ℚ) * a.frame_duration * 1,
      playback_speed := 1, playing := true, paused := false, finished := false,
      events := [] }
    hk rfl rfl (by push_cast; ring) (by norm_num)
    (by show (0:ℤ) < (a.get_frame_count : ℤ); exact_mod_cast hN)
  refine hrun.trans ?_
  norm_num

/-- Witness for C1: three frame-durations on the two-frame looping `walk`
animation land on frame `3 mod 2 = 1`. -/
theorem C1_witness :
    (((AnimationController.create walkAtlas).play "walk" false).update
        (((3:ℕ) : ℚ) * walkAnim.frame_duration)).current_frame_index
      = ((3:ℕ) : ℤ) % (walkAnim.get_frame_count : ℤ) :=
  C1_uniform_loop_frame_mod walkAtlas "walk" walkAnim 3 rfl
    (by norm_num [walkAnim, AnimationData.get_frame_count])
    rfl rfl (by norm_num [walkAnim, epsilon]) (by norm_num [max_steps])

/-- Counterexample to C1 as stated: (i) with `N = 2`, `d = 1`, `k = 2049`
the advance loop stops at its 2048-iteration cap, leaving frame 0 instead
of `2049 mod 2 = 1`; (ii) with `N = 2`, `d = 1/1000000 = epsilon`, `k = 0`
the loop over-advances to frame 1 instead of staying at `0 mod 2 = 0`. -/
theorem C1_counterexample :
    ¬ ((((AnimationController.create walkAtlas).play "walk" false).update
        ((2049 : ℚ) * 1)).current_frame_index = (2049 : ℤ) % 2) ∧
    ¬ ((((AnimationController.create tinyAtlas).play "tiny" false).update
        ((0 : ℚ) * (1 / 1000000))).current_frame_index = (0 : ℤ) % 2) := by
  constructor
  · rw [play_from_fresh walkAtlas "walk" walkAnim rfl]
    rw [update_active
      { atlas := walkAtlas, current_anim := some walkAnim, current_anim_name := "walk",
        current_frame_index := 0, current_frame_time := 0, playback_speed := 1,
        playing := true, paused := false, finished := false, events := [] }
      ((2049 : ℚ) * 1) rfl rfl rfl rfl]
    intro hcontra
    have hcap := update_loop_uniform_loop_cap walkAnim rfl rfl
      (by norm_num [walkAnim]) max_steps 2049
      { atlas := walkAtlas, current_anim := some walkAnim, current_anim_name := "walk",
        current_frame_index := 0,
        current_frame_time := 0 + (2049 : ℚ) * 1 * 1,
        playback_speed := 1, playing := true, paused := false, finished := false,
        events := [] }
      (by norm_num [max_steps]) rfl rfl
      (by show (0:ℚ) + (2049 : ℚ) * 1 * 1 = ((2049:ℕ) : ℚ) * walkAnim.frame_duration
          norm_num [walkAnim])
      (by norm_num)
      (by show (0:ℤ) < (walkAnim.get_frame_count : ℤ)
          norm_num [walkAnim, AnimationData.get_frame_count])
    exact absurd (hcap.symm.trans hcontra) (by decide)
  · intro hcontra
    have hval := update_zero_tiny_duration tinyAnim rfl rfl
      (by norm_num [tinyAnim, AnimationData.get_frame_count])
      ((AnimationController.create tinyAtlas).play "tiny" false)
      rfl rfl rfl rfl rfl rfl ((0 : ℚ) * (1 / 1000000)) (by norm_num)
    exact absurd (hval.symm.trans hcontra) (by decide)

/-- Claim C4: every `update(dt)` performs at most `max_steps = 2048`
frame-advance iterations, for every `dt` and every bound animation
(termination is structural: each iteration consumes one unit of the finite
step budget); and a non-positive current frame duration consumes exactly
one loop iteration, advancing exactly one frame, so it never stalls the
loop. -/
theorem C4_update_bounded_steps (c : AnimationController) (dt : ℚ) :
    c.update_steps dt ≤ max_steps ∧
    (∀ (fd : ℚ) (fuel : ℕ), c.playing = true → fd ≤ 0 →
      c.update_loop fd (fuel + 1) =
        ((c.advance_frame.update_loop c.advance_frame.get_current_frame_duration fuel).1,
         (c.advance_frame.update_loop c.advance_frame.get_current_frame_duration fuel).2 + 1)) := by
  constructor
  · unfold AnimationController.update_steps
    split_ifs with h
    · exact Nat.zero_le _
    · exact update_loop_steps_le max_steps _ _
  · intro fd fuel hp hfd
    exact update_loop_degenerate c fd fuel hp hfd

/-- Witness for C4 at a controller bound to a zero-duration animation. -/
theorem C4_witness :
    zeroCtl.update_steps 5 ≤ max_steps ∧
    zeroCtl.update_loop 0 (3 + 1) =
      ((zeroCtl.advance_frame.update_loop zeroCtl.advance_frame.get_current_frame_duration 3).1,
       (zeroCtl.advance_frame.update_loop zeroCtl.advance_frame.get_current_frame_duration 3).2 + 1) :=
  ⟨(C4_update_bounded_steps zeroCtl 5).1, (C4_update_bounded_steps zeroCtl 5).2 0 3 rfl le_rfl⟩

/-- Claim C5, amended with the step-cap bound `N ≤ 2048`: for a
non-looping animation of `1 ≤ N ≤ 2048` frames with uniform duration
`d > 0`, freshly started at speed 1, a single `update(k·d)` with `k ≥ N`
ends clamped on the last frame, finished, not playing, with the end
callback invoked exactly once.  (The unamended claim fails for
`N > 2048`.) -/
theorem C5_once_run_finishes (atlas : TextureAtlas) (name : String)
    (a : AnimationData) (k : ℕ)
    (ha : atlas.get_animation name = some a)
    (hN1 : 1 ≤ a.get_frame_count) (hNcap : a.get_frame_count ≤ max_steps)
    (hl : a.loop = false) (hu : a.frame_durations = [])
    (hd : 0 < a.frame_duration) (hk : a.get_frame_count ≤ k) :
    (((AnimationController.create atlas).play name false).update
        ((k : ℚ) * a.frame_duration)).current_frame_index
      = (a.get_frame_count : ℤ) - 1 ∧
    (((AnimationController.create atlas).play name false).update
        ((k : ℚ) * a.frame_duration)).is_finished = true ∧
    (((AnimationController.create atlas).play name false).update
        ((k : ℚ) * a.frame_duration)).is_playing = false ∧
    (((AnimationController.create atlas).play name false).update
        ((k : ℚ) * a.frame_duration)).events.count AnimEvent.animationEnd = 1 := by
  rw [play_from_fresh atlas name a ha]
  rw [update_active
    { atlas := atlas, current_anim := some a, current_anim_name := name,
      current_frame_index := 0, current_frame_time := 0, playback_speed := 1,
      playing := true, paused := false, finished := false, events := [] }
    ((k : ℚ) * a.frame_duration) rfl rfl rfl rfl]
  have hfin := update_loop_once_finish a hl hu hd (a.get_frame_count - 1) k max_steps
    { atlas := atlas, current_anim := some a, current_anim_name := name,
      current_frame_index := 0,
      current_frame_time := 0 + (k : ℚ) * a.frame_duration * 1,
      playback_speed := 1, playing := true, paused := false, finished := false,
      events := [] }
    (by omega) (by omega) rfl rfl (by push_cast; ring)
    (by show (0:ℤ) = (a.get_frame_count : ℤ) - 1 - ((a.get_frame_count - 1 : ℕ) : ℤ)
        push_cast [hN1]
        ring)
    (by norm_num)
  obtain ⟨-, -, r_idx, r_play, r_paused, r_fin, r_count⟩ := hfin
  refine ⟨r_idx, ?_, ?_, ?_⟩
  · show _ = true
    exact r_fin
  · show (_ && _) = false
    rw [r_play]
    rfl
  · rw [r_count]
    rfl

/-- Witness for C5: the three-frame `once` animation driven by five frame
durations finishes on frame 2 with one end-callback invocation. -/
theorem C5_witness :
    (((AnimationController.create onceAtlas).play "once" false).update
        (((5:ℕ) : ℚ) * onceAnim.frame_duration)).current_frame_index
      = (onceAnim.get_frame_count : ℤ) - 1 ∧
    (((AnimationController.create onceAtlas).play "once" false).update
        (((5:ℕ) : ℚ) * onceAnim.frame_duration)).is_finished = true ∧
    (((AnimationController.create onceAtlas).play "once" false).update
        (((5:ℕ) : ℚ) * onceAnim.frame_duration)).is_playing = false ∧
    (((AnimationController.create onceAtlas).play "once" false).update
        (((5:ℕ) : ℚ) * onceAnim.frame_duration)).events.count AnimEvent.animationEnd = 1 :=
  C5_once_run_finishes onceAtlas "once" onceAnim 5 rfl
    (by norm_num [onceAnim, AnimationData.get_frame_count])
    (by norm_num [onceAnim, AnimationData.get_frame_count, max_steps])
    rfl rfl (by norm_num [onceAnim])
    (by norm_num [onceAnim, AnimationData.get_frame_count])

/-- Counterexample to C5 as stated: with `N = 2049 > 2048` frames and
`k = 2049` the advance loop exhausts its cap before reaching the last
frame, so the controller is neither finished nor stopped (and no end
callback fires), contradicting the claimed conjunction. -/
theorem C5_counterexample :
    ¬ ((((AnimationController.create bigAtlas).play "big" false).update
          ((2049 : ℚ) * 1)).current_frame_index = (bigAnim.get_frame_count : ℤ) - 1 ∧
       (((AnimationController.create bigAtlas).play "big" false).update
          ((2049 : ℚ) * 1)).is_finished = true ∧
       (((AnimationController.create bigAtlas).play "big" false).update
          ((2049 : ℚ) * 1)).is_playing = false ∧
       (((AnimationController.create bigAtlas).play "big" false).update
          ((2049 : ℚ) * 1)).events.count AnimEvent.animationEnd = 1) := by
  rw [play_from_fresh bigAtlas "big" bigAnim rfl]
  rw [update_active
    { atlas := bigAtlas, current_anim := some bigAnim, current_anim_name := "big",
      current_frame_index := 0, current_frame_time := 0, playback_speed := 1,
      playing := true, paused := false, finished := false, events := [] }
    ((2049 : ℚ) * 1) rfl rfl rfl rfl]
  rintro ⟨-, hfin, -, -⟩
  have hcap := update_loop_uniform_cap_no_finish bigAnim rfl
    (by norm_num [bigAnim]) max_steps 2049
    { atlas := bigAtlas, current_anim := some bigAnim, current_anim_name := "big",
      current_frame_index := 0,
      current_frame_time := 0 + (2049 : ℚ) * 1 * 1,
      playback_speed := 1, playing := true, paused := false, finished := false,
      events := [] }
    (by norm_num [max_steps]) rfl rfl
    (by show (0:ℚ) + (2049 : ℚ) * 1 * 1 = ((2049:ℕ) : ℚ) * bigAnim.frame_duration
        norm_num [bigAnim])
    (by norm_num)
    (by show (0:ℤ) + ((max_steps : ℕ) : ℤ) ≤ (bigAnim.get_frame_count : ℤ) - 1
        norm_num [bigAnim, AnimationData.get_frame_count, max_steps])
  obtain ⟨-, -, -, r_fin, -⟩ := hcap
  exact absurd (r_fin.symm.trans hfin) (by decide)

/-- If the early-out guard of `update` is not taken, the controller is
active: playing, not paused, an animation bound, not finished. -/
lemma update_guard_false (c : AnimationController)
    (hg : ¬ ((!c.playing || c.paused || c.current_anim.isNone || c.finished) = true)) :
    c.playing = true ∧ c.paused = false ∧ c.current_anim.isSome = true ∧
      c.finished = false := by
  cases hp : c.playing <;> cases hpa : c.paused <;> cases hf : c.finished <;>
    cases hca : c.current_anim <;> simp_all

/-- Claim C8, amended: `update(0)` is the identity (in particular on
`frame_index`, and it fires no callbacks) whenever the controller is
inactive, or the current frame's duration `d` is positive and the elapsed
frame time satisfies `time + epsilon < d`.  (The unamended claim fails as
soon as `d ≤ epsilon` — including the zero- and negative-duration frames
it explicitly covers — because the break test `time + epsilon < d` cannot
hold, so frames advance even on a zero time step.) -/
theorem C8_update_zero_identity (c : AnimationController)
    (h : (¬ (c.playing = true ∧ c.paused = false ∧ c.current_anim.isSome = true ∧
             c.finished = false)) ∨
         (0 < c.get_current_frame_duration ∧
          c.current_frame_time + epsilon < c.get_current_frame_duration)) :
    c.update 0 = c := by
  by_cases hactive : c.playing = true ∧ c.paused = false ∧
      c.current_anim.isSome = true ∧ c.finished = false
  · obtain ⟨hp, hpa, hanim, hfin⟩ := hactive
    obtain ⟨hfdpos, hbr⟩ := h.resolve_left (not_not_intro ⟨hp, hpa, hanim, hfin⟩)
    rw [update_active c 0 hp hpa hanim hfin]
    have hc1 : { c with current_frame_time := c.current_frame_time + 0 * c.playback_speed }
        = c := by
      have hz : c.current_frame_time + 0 * c.playback_speed = c.current_frame_time := by
        ring
      rw [hz]
    rw [hc1, show max_steps = 2047 + 1 from rfl,
      update_loop_break_fst c _ 2047 hp (not_le.mpr hfdpos) hbr]
  · unfold AnimationController.update
    split_ifs with hg
    · rfl
    · exact absurd (update_guard_false c hg) hactive

/-- Witness for C8 at a fresh controller over the duration-1 `walk`
animation. -/
theorem C8_witness :
    ((AnimationController.create walkAtlas).play "walk" false).update 0
      = (AnimationController.create walkAtlas).play "walk" false :=
  C8_update_zero_identity ((AnimationController.create walkAtlas).play "walk" false)
    (Or.inr ⟨by show (0:ℚ) < 1; norm_num,
             by show (0:ℚ) + epsilon < 1; norm_num [epsilon]⟩)

/-- Counterexample to C8 as stated: on the reachable controller freshly
playing the `tiny` animation (uniform duration `epsilon`), `update(0)`
advances the frame index from 0 to 1. -/
theorem C8_counterexample :
    ¬ ((((AnimationController.create tinyAtlas).play "tiny" false).update 0).current_frame_index
        = ((AnimationController.create tinyAtlas).play "tiny" false).current_frame_index) := by
  intro h
  have hval := update_zero_tiny_duration tinyAnim rfl rfl
    (by norm_num [tinyAnim, AnimationData.get_frame_count])
    ((AnimationController.create tinyAtlas).play "tiny" false)
    rfl rfl rfl rfl rfl rfl 0 rfl
  exact absurd (hval.symm.trans h) (by decide)

/-- Evaluation of `play(name, restart := false)` when the name resolves and
the idempotence branch is not taken: the definition is bound and the flags
are set; frame index and elapsed time reset exactly when the resolved
definition differs from the currently bound one. -/
lemma play_fields (c : AnimationController) (name : String) (a : AnimationData)
    (ha : c.atlas.get_animation name = some a)
    (hno : ¬ ((c.current_anim.isSome && (c.current_anim_name == name)) = true ∧
              c.playing = true)) :
    (c.play name false).current_anim = some a ∧
    (c.play name false).current_anim_name = name ∧
    (c.play name false).playing = true ∧
    (c.play name false).paused = false ∧
    (c.play name false).finished = false ∧
    ((c.current_anim.isSome && (c.current_anim_name == name)) = false →
      (c.play name false).current_frame_index = 0 ∧
      (c.play name false).current_frame_time = 0) ∧
    ((c.current_anim.isSome && (c.current_anim_name == name)) = true →
      (c.play name false).current_frame_index = c.current_frame_index ∧
      (c.play name false).current_frame_time = c.current_frame_time) := by
  cases hsame : (c.current_anim.isSome && (c.current_anim_name == name)) with
  | false => simp [AnimationController.play, ha, hsame]
  | true =>
    have hpl : c.playing = false := by
      cases hpl : c.playing with
      | false => rfl
      | true => exact absurd ⟨hsame, hpl⟩ hno
    simp [AnimationController.play, ha, hsame, hpl]

/-- Rebinding the currently bound (not playing) animation with
`restart := false` keeps the frame index. -/
lemma play_keep_index (c : AnimationController) (name : String) (a : AnimationData)
    (ha : c.atlas.get_animation name = some a)
    (hanim : c.current_anim = some a) (hname : c.current_anim_name = name)
    (hpl : c.playing = false) :
    (c.play name false).current_frame_index = c.current_frame_index := by
  have hsame : (c.current_anim.isSome && (c.current_anim_name == name)) = true := by
    rw [hanim, hname]; simp
  have h := play_fields c name a ha
    (by rintro ⟨-, hx⟩; rw [hpl] at hx; exact Bool.false_ne_true hx)
  exact (h.2.2.2.2.2.2 hsame).1

/-- Claim C6, amended: every `play(name, restart=false)` with `name` in the
catalog, outside the idempotent no-op branch, binds the named definition
and sets `playing`, clears `paused` and `finished`; frame index and
elapsed time are reset to 0 exactly when the named definition is not the
currently bound one, and are left untouched when rebinding the currently
bound (but not playing) definition.  (The unamended claim asserts the
reset unconditionally.) -/
theorem C6_play_binds (c : AnimationController) (name : String) (a : AnimationData)
    (ha : c.atlas.get_animation name = some a)
    (hno : ¬ ((c.current_anim.isSome && (c.current_anim_name == name)) = true ∧
              c.playing = true)) :
    (c.play name false).current_anim = some a ∧
    (c.play name false).current_anim_name = name ∧
    (c.play name false).playing = true ∧
    (c.play name false).paused = false ∧
    (c.play name false).finished = false ∧
    ((c.current_anim.isSome && (c.current_anim_name == name)) = false →
      (c.play name false).current_frame_index = 0 ∧
      (c.play name false).current_frame_time = 0) ∧
    ((c.current_anim.isSome && (c.current_anim_name == name)) = true →
      (c.play name false).current_frame_index = c.current_frame_index ∧
      (c.play name false).current_frame_time = c.current_frame_time) :=
  play_fields c name a ha hno

/-- Witness for C6 on a fresh controller binding `once`. -/
theorem C6_witness :
    ((AnimationController.create onceAtlas).play "once" false).current_anim = some onceAnim ∧
    ((AnimationController.create onceAtlas).play "once" false).current_anim_name = "once" ∧
    ((AnimationController.create onceAtlas).play "once" false).playing = true ∧
    ((AnimationController.create onceAtlas).play "once" false).paused = false ∧
    ((AnimationController.create onceAtlas).play "once" false).finished = false ∧
    (((AnimationController.create onceAtlas).current_anim.isSome &&
        ((AnimationController.create onceAtlas).current_anim_name == "once")) = false →
      ((AnimationController.create onceAtlas).play "once" false).current_frame_index = 0 ∧
      ((AnimationController.create onceAtlas).play "once" false).current_frame_time = 0) ∧
    (((AnimationController.create onceAtlas).current_anim.isSome &&
        ((AnimationController.create onceAtlas).current_anim_name == "once")) = true →
      ((AnimationController.create onceAtlas).play "once" false).current_frame_index
        = (AnimationController.create onceAtlas).current_frame_index ∧
      ((AnimationController.create onceAtlas).play "once" false).current_frame_time
        = (AnimationController.create onceAtlas).current_frame_time) :=
  C6_play_binds (AnimationController.create onceAtlas) "once" onceAnim rfl
    (by simp [AnimationController.create])

/-- Counterexample to C6 as stated: finish the two-frame non-looping
`once2` animation (the controller rests on frame 1, not playing), then
call `play("once2", restart := false)`.  The call is outside both the
unknown-name branch and the no-op branch, yet the frame index stays at 1
instead of resetting to 0. -/
theorem C6_counterexample :
    ¬ (((((AnimationController.create once2Atlas).play "once2" false).update
          ((2 : ℚ) * 1)).play "once2" false).current_frame_index = 0) := by
  rw [play_from_fresh once2Atlas "once2" once2Anim rfl]
  rw [update_active
    { atlas := once2Atlas, current_anim := some once2Anim, current_anim_name := "once2",
      current_frame_index := 0, current_frame_time := 0, playback_speed := 1,
      playing := true, paused := false, finished := false, events := [] }
    ((2 : ℚ) * 1) rfl rfl rfl rfl]
  have hrun := update_loop_once_finish once2Anim rfl rfl (by norm_num [once2Anim]) 1 2
    max_steps
    { atlas := once2Atlas, current_anim := some once2Anim, current_anim_name := "once2",
      current_frame_index := 0,
      current_frame_time := 0 + (2 : ℚ) * 1 * 1,
      playback_speed := 1, playing := true, paused := false, finished := false,
      events := [] }
    (by omega) (by norm_num [max_steps]) rfl rfl
    (by show (0:ℚ) + (2 : ℚ) * 1 * 1 = ((2:ℕ) : ℚ) * once2Anim.frame_duration
        norm_num [once2Anim])
    (by show (0:ℤ) = (once2Anim.get_frame_count : ℤ) - 1 - ((1:ℕ) : ℤ)
        norm_num [once2Anim, AnimationData.get_frame_count])
    (by norm_num)
  obtain ⟨r_anim, r_name, r_idx, r_play, -, -, -⟩ := hrun
  have r_atlas : (AnimationController.update_loop
      { atlas := once2Atlas, current_anim := some once2Anim, current_anim_name := "once2",
        current_frame_index := 0,
        current_frame_time := 0 + (2 : ℚ) * 1 * 1,
        playback_speed := 1, playing := true, paused := false, finished := false,
        events := [] }
      (AnimationController.get_current_frame_duration
        { atlas := once2Atlas, current_anim := some once2Anim, current_anim_name := "once2",
          current_frame_index := 0,
          current_frame_time := 0 + (2 : ℚ) * 1 * 1,
          playback_speed := 1, playing := true, paused := false, finished := false,
          events := [] })
      max_steps).1.atlas = once2Atlas :=
    update_loop_atlas max_steps _ _
  intro h
  have ha2 : (AnimationController.update_loop
      { atlas := once2Atlas, current_anim := some once2Anim, current_anim_name := "once2",
        current_frame_index := 0,
        current_frame_time := 0 + (2 : ℚ) * 1 * 1,
        playback_speed := 1, playing := true, paused := false, finished := false,
        events := [] }
      (AnimationController.get_current_frame_duration
        { atlas := once2Atlas, current_anim := some once2Anim, current_anim_name := "once2",
          current_frame_index := 0,
          current_frame_time := 0 + (2 : ℚ) * 1 * 1,
          playback_speed := 1, playing := true, paused := false, finished := false,
          events := [] })
      max_steps).1.atlas.get_animation "once2" = some once2Anim := by
    rw [r_atlas]
    rfl
  have r_name2 : (AnimationController.update_loop
      { atlas := once2Atlas, current_anim := some once2Anim, current_anim_name := "once2",
        current_frame_index := 0,
        current_frame_time := 0 + (2 : ℚ) * 1 * 1,
        playback_speed := 1, playing := true, paused := false, finished := false,
        events := [] }
      (AnimationController.get_current_frame_duration
        { atlas := once2Atlas, current_anim := some once2Anim, current_anim_name := "once2",
          current_frame_index := 0,
          current_frame_time := 0 + (2 : ℚ) * 1 * 1,
          playback_speed := 1, playing := true, paused := false, finished := false,
          events := [] })
      max_steps).1.current_anim_name = "once2" := r_name
  have hkidx := play_keep_index _ "once2" once2Anim ha2 r_anim r_name2 r_play
  have hz : (once2Anim.get_frame_count : ℤ) - 1 = 0 :=
    r_idx.symm.trans (hkidx.symm.trans h)
  exact absurd hz (by decide)

/-- Claim C7 fails on the code (code bug): with a one-frame animation
bound, the `get_progress` guard (`!current_anim || frame_count == 0`) is
not taken, so the code divides by `frame_count - 1 = 0`: in the source's
IEEE `float` arithmetic `0.0f / 0.0f` is NaN, not the 0 the claim (and the
header comment `0.0 to 1.0`) promises.  This theorem exhibits the failing
input: an animation is bound, its frame count is 1 (so the guard falls
through) and the divisor of the division branch is 0. -/
theorem C7_one_frame_zero_divisor :
    singleCtl.has_animation = true ∧
    singleCtl.get_frame_count = 1 ∧
    ¬ (singleAnim.get_frame_count = 0) ∧
    ((singleAnim.get_frame_count : ℚ) - 1 = 0) ∧
    singleCtl.get_progress
      = (singleCtl.current_frame_index : ℚ) / ((singleAnim.get_frame_count : ℚ) - 1) := by
  refine ⟨rfl, rfl, by decide, by norm_num [singleAnim, AnimationData.get_frame_count], ?_⟩
  rfl

lemma stop_inv (c : AnimationController) :
    ControllerInv c.stop ∧ AtlasCoherent c.stop := by
  refine ⟨⟨fun _ => rfl, ?_, ?_⟩, ?_⟩
  · intro a h
    simp [AnimationController.stop] at h
  · intro h
    simp [AnimationController.stop] at h
  · intro a h
    simp [AnimationController.stop] at h

lemma pause_inv (c : AnimationController) (hinv : ControllerInv c)
    (hcoh : AtlasCoherent c) :
    ControllerInv c.pause ∧ AtlasCoherent c.pause := by
  obtain ⟨h1, h2, h3⟩ := hinv
  unfold AnimationController.pause
  split_ifs with hp
  · exact ⟨⟨h1, h2, fun _ => hp⟩, hcoh⟩
  · exact ⟨⟨h1, h2, h3⟩, hcoh⟩

lemma resume_inv (c : AnimationController) (hinv : ControllerInv c)
    (hcoh : AtlasCoherent c) :
    ControllerInv c.resume ∧ AtlasCoherent c.resume := by
  obtain ⟨h1, h2, h3⟩ := hinv
  unfold AnimationController.resume
  split_ifs with hp
  · exact ⟨⟨h1, h2, fun _ => hp⟩, hcoh⟩
  · exact ⟨⟨h1, h2, h3⟩, hcoh⟩

lemma reset_inv (c : AnimationController) (hinv : ControllerInv c)
    (hcoh : AtlasCoherent c) :
    ControllerInv c.reset ∧ AtlasCoherent c.reset := by
  obtain ⟨-, h2, h3⟩ := hinv
  refine ⟨⟨fun h => (Bool.false_ne_true h).elim, ?_, h3⟩, hcoh⟩
  intro a h
  obtain ⟨hi0, hiN⟩ := h2 a h
  refine ⟨le_refl 0, ?_⟩
  show (0:ℤ) < (a.get_frame_count : ℤ)
  omega

lemma set_frame_inv (c : AnimationController) (hinv : ControllerInv c)
    (hcoh : AtlasCoherent c) (i : ℤ) :
    ControllerInv (c.set_frame i) ∧ AtlasCoherent (c.set_frame i) := by
  obtain ⟨h1, h2, h3⟩ := hinv
  cases hca : c.current_anim with
  | none =>
    have heq : c.set_frame i = c := by
      simp [AnimationController.set_frame, hca]
    rw [heq]
    exact ⟨⟨h1, h2, h3⟩, hcoh⟩
  | some anim =>
    obtain ⟨hi0, hiN⟩ := h2 anim hca
    have heq : c.set_frame i =
        { c with
          current_frame_index :=
            if i < 0 then 0
            else if (anim.get_frame_count : ℤ) - 1 < i then (anim.get_frame_count : ℤ) - 1
            else i,
          current_frame_time := 0 } := by
      simp [AnimationController.set_frame, hca]
    rw [heq]
    refine ⟨⟨h1, ?_, h3⟩, ?_⟩
    · intro a' ha'
      have ha'' : c.current_anim = some a' := ha'
      have haa : anim = a' := by
        have hx : some anim = some a' := hca.symm.trans ha''
        injection hx
      subst haa
      constructor
      · show (0:ℤ) ≤
          (if i < 0 then 0
           else if (anim.get_frame_count : ℤ) - 1 < i then (anim.get_frame_count : ℤ) - 1
           else i)
        split_ifs <;> omega
      · show (if i < 0 then 0
           else if (anim.get_frame_count : ℤ) - 1 < i then (anim.get_frame_count : ℤ) - 1
           else i) < (anim.get_frame_count : ℤ)
        split_ifs <;> omega
    · intro a' ha'
      have ha'' : c.current_anim = some a' := ha'
      exact hcoh a' ha''

/-- Full evaluation of `play` once the name resolves, all branches. -/
lemma play_found (c : AnimationController) (name : String) (anim : AnimationData)
    (ha : c.atlas.get_animation name = some anim) (restart : Bool) :
    c.play name restart =
      (if (c.current_anim.isSome && (c.current_anim_name == name)) && c.playing && !restart
       then c
       else if restart || !(c.current_anim.isSome && (c.current_anim_name == name)) then
        { c with current_anim := some anim, current_anim_name := name,
                 current_frame_index := 0, current_frame_time := 0,
                 playing := true, paused := false, finished := false }
       else
        { c with current_anim := some anim, current_anim_name := name,
                 playing := true, paused := false, finished := false }) := by
  cases hsame : (c.current_anim.isSome && (c.current_anim_name == name)) <;>
    cases hpl : c.playing <;> cases restart <;>
      simp [AnimationController.play, ha, hsame, hpl]

lemma play_inv (c : AnimationController) (hinv : ControllerInv c)
    (hcoh : AtlasCoherent c) (hcat : NonemptyCatalog c.atlas)
    (name : String) (restart : Bool) :
    ControllerInv (c.play name restart) ∧ AtlasCoherent (c.play name restart) := by
  obtain ⟨h1, h2, h3⟩ := hinv
  cases ha : c.atlas.get_animation name with
  | none =>
    have heq : c.play name restart = c.stop := by
      simp [AnimationController.play, ha]
    rw [heq]
    exact stop_inv c
  | some anim =>
    have hcount : 0 < anim.get_frame_count := hcat name anim ha
    rw [play_found c name anim ha restart]
    split_ifs with hnoop hreset
    · exact ⟨⟨h1, h2, h3⟩, hcoh⟩
    · refine ⟨⟨fun h => (Bool.false_ne_true h).elim, ?_,
        fun h => (Bool.false_ne_true h).elim⟩, ?_⟩
      · intro a' ha'
        have hx : some anim = some a' := ha'
        have haa : anim = a' := by injection hx
        subst haa
        refine ⟨le_refl 0, ?_⟩
        show (0:ℤ) < (anim.get_frame_count : ℤ)
        exact_mod_cast hcount
      · intro a' ha'
        have hx : some anim = some a' := ha'
        have haa : anim = a' := by injection hx
        subst haa
        exact ha
    · -- keep branch: same animation already bound, no restart
      have hsame : (c.current_anim.isSome && (c.current_anim_name == name)) = true := by
        cases h : (c.current_anim.isSome && (c.current_anim_name == name)) with
        | true => rfl
        | false => rw [h] at hreset; simp at hreset
      rw [Bool.and_eq_true] at hsame
      have hname : c.current_anim_name = name := eq_of_beq hsame.2
      obtain ⟨a', ha'⟩ := Option.isSome_iff_exists.mp hsame.1
      have haa : a' = anim := by
        have hc := hcoh a' ha'
        rw [hname, ha] at hc
        have hx : some anim = some a' := hc
        have : anim = a' := by injection hx
        exact this.symm
      subst haa
      refine ⟨⟨fun h => (Bool.false_ne_true h).elim, ?_,
        fun h => (Bool.false_ne_true h).elim⟩, ?_⟩
      · intro a'' ha''
        have hx : some a' = some a'' := ha''
        have haa2 : a' = a'' := by injection hx
        subst haa2
        exact h2 a' ha'
      · intro a'' ha''
        have hx : some a' = some a'' := ha''
        have haa2 : a' = a'' := by injection hx
        subst haa2
        exact ha

lemma advance_frame_inv (c : AnimationController) (hinv : ControllerInv c)
    (hp : c.playing = true) (hf : c.finished = false) (hpa : c.paused = false) :
    ControllerInv c.advance_frame ∧ c.advance_frame.paused = false ∧
      (c.advance_frame.playing = true → c.advance_frame.finished = false) := by
  obtain ⟨-, hbnd, -⟩ := hinv
  cases hca : c.current_anim with
  | none =>
    have heq : c.advance_frame = c := by
      unfold AnimationController.advance_frame
      rw [hca]
    rw [heq]
    exact ⟨⟨by simp [hf], hbnd, fun _ => hp⟩, hpa, fun _ => hf⟩
  | some a =>
    obtain ⟨h0, hN⟩ := hbnd a hca
    by_cases hge : c.current_frame_index + 1 ≥ (a.get_frame_count : ℤ)
    · cases hl : a.loop with
      | true =>
        obtain ⟨w_anim, -, w_idx, -, -, w_play, w_paused, w_fin, -⟩ :=
          advance_frame_loop_wrap c a hca hl h0 hN
        refine ⟨⟨by simp [w_fin, w_play, hf], ?_, by simp [w_paused, hpa]⟩,
          by rw [w_paused, hpa], by simp [w_fin, hf]⟩
        intro a' ha'
        rw [w_anim] at ha'
        have haa : a = a' := by injection ha'
        subst haa
        rw [w_idx]
        refine ⟨Int.emod_nonneg _ (by omega), Int.emod_lt_of_pos _ (by omega)⟩
      | false =>
        obtain ⟨f_anim, -, f_idx, -, -, f_play, f_paused, f_fin, -⟩ :=
          advance_frame_finish c a hca hl hge
        refine ⟨⟨fun _ => f_play, ?_, by simp [f_paused, hpa]⟩,
          by rw [f_paused, hpa], ?_⟩
        · intro a' ha'
          rw [f_anim] at ha'
          have haa : a = a' := by injection ha'
          subst haa
          rw [f_idx]
          omega
        · intro hx
          rw [f_play] at hx
          exact (Bool.false_ne_true hx).elim
    · obtain ⟨m_anim, -, m_idx, -, -, m_play, m_paused, m_fin, -⟩ :=
        advance_frame_mid c a hca (by omega)
      refine ⟨⟨by simp [m_fin, m_play, hf], ?_, by simp [m_paused, hpa]⟩,
        by rw [m_paused, hpa], by simp [m_fin, hf]⟩
      intro a' ha'
      rw [m_anim] at ha'
      have haa : a = a' := by injection ha'
      subst haa
      rw [m_idx]
      omega

lemma update_loop_inv (fuel : ℕ) : ∀ (c : AnimationController) (fd : ℚ),
    ControllerInv c → c.paused = false → (c.playing = true → c.finished = false) →
    ControllerInv (c.update_loop fd fuel).1 ∧
    (c.update_loop fd fuel).1.paused = false ∧
    (c.update_loop fd fuel).1.current_anim = c.current_anim ∧
    (c.update_loop fd fuel).1.current_anim_name = c.current_anim_name ∧
    (c.update_loop fd fuel).1.atlas = c.atlas := by
  induction fuel with
  | zero =>
    intro c fd hinv hpa himp
    rw [update_loop_fuel_zero]
    exact ⟨hinv, hpa, rfl, rfl, rfl⟩
  | succ f ih =>
    intro c fd hinv hpa himp
    by_cases hp : c.playing = true
    · have hf : c.finished = false := himp hp
      by_cases hfd : fd ≤ 0
      · rw [update_loop_degenerate_fst c fd f hp hfd]
        have hadv := advance_frame_inv c hinv hp hf hpa
        have hfix := advance_frame_fixed_fields c
        have hres := ih c.advance_frame c.advance_frame.get_current_frame_duration
          hadv.1 hadv.2.1 hadv.2.2
        exact ⟨hres.1, hres.2.1, hres.2.2.1.trans hfix.2.1,
          hres.2.2.2.1.trans hfix.2.2.1, hres.2.2.2.2.trans hfix.1⟩
      · by_cases hbr : c.current_frame_time + epsilon < fd
        · rw [update_loop_break_fst c fd f hp hfd hbr]
          exact ⟨hinv, hpa, rfl, rfl, rfl⟩
        · rw [update_loop_consume_fst c fd f hp hfd hbr]
          have hadv := advance_frame_inv
            { c with current_frame_time := c.current_frame_time - fd } hinv hp hf hpa
          have hfix := advance_frame_fixed_fields
            { c with current_frame_time := c.current_frame_time - fd }
          have hres := ih ({ c with current_frame_time :=
              c.current_frame_time - fd }).advance_frame
            ({ c with current_frame_time :=
              c.current_frame_time - fd }).advance_frame.get_current_frame_duration
            hadv.1 hadv.2.1 hadv.2.2
          refine ⟨hres.1, hres.2.1, ?_, ?_, ?_⟩
          · exact hres.2.2.1.trans hfix.2.1
          · exact hres.2.2.2.1.trans hfix.2.2.1
          · exact hres.2.2.2.2.trans hfix.1
    · rw [update_loop_not_playing c fd (f + 1) (by simpa using hp)]
      exact ⟨hinv, hpa, rfl, rfl, rfl⟩

lemma update_inv (c : AnimationController) (hinv : ControllerInv c)
    (hcoh : AtlasCoherent c) (dt : ℚ) :
    ControllerInv (c.update dt) ∧ AtlasCoherent (c.update dt) := by
  by_cases hg : (!c.playing || c.paused || c.current_anim.isNone || c.finished) = true
  · have heq : c.update dt = c := by
      unfold AnimationController.update
      rw [if_pos hg]
    rw [heq]
    exact ⟨hinv, hcoh⟩
  · obtain ⟨hp, hpa, hanim, hfin⟩ := update_guard_false c hg
    rw [update_active c dt hp hpa hanim hfin]
    have hres := update_loop_inv max_steps
      { c with current_frame_time := c.current_frame_time + dt * c.playback_speed }
      ({ c with current_frame_time :=
          c.current_frame_time + dt * c.playback_speed }).get_current_frame_duration
      hinv hpa (fun _ => hfin)
    obtain ⟨hresinv, -, hanimeq, hnameeq, hatlaseq⟩ := hres
    refine ⟨hresinv, ?_⟩
    intro a' ha'
    have ha'' : c.current_anim = some a' := hanimeq.symm.trans ha'
    rw [hatlaseq, hnameeq]
    exact hcoh a' ha''

/-- Claim C9: under the precondition that the catalog only serves
animations with a non-empty frame list, every public controller operation
(`play`, `stop`, `pause`, `resume`, `reset`, `update`, `set_frame`)
preserves the playback invariants `finished ⇒ ¬playing`,
`0 ≤ frame_index < frame_count` whenever an animation is bound, and
`paused ⇒ playing` (together with the catalog-coherence of the bound
animation, the embedding's rendering of C++ pointer stability). -/
theorem C9_ops_preserve_invariants (c : AnimationController)
    (hinv : ControllerInv c) (hcoh : AtlasCoherent c)
    (hcat : NonemptyCatalog c.atlas) :
    ∀ (name : String) (restart : Bool) (dt : ℚ) (i : ℤ),
      (ControllerInv (c.play name restart) ∧ AtlasCoherent (c.play name restart)) ∧
      (ControllerInv c.stop ∧ AtlasCoherent c.stop) ∧
      (ControllerInv c.pause ∧ AtlasCoherent c.pause) ∧
      (ControllerInv c.resume ∧ AtlasCoherent c.resume) ∧
      (ControllerInv c.reset ∧ AtlasCoherent c.reset) ∧
      (ControllerInv (c.update dt) ∧ AtlasCoherent (c.update dt)) ∧
      (ControllerInv (c.set_frame i) ∧ AtlasCoherent (c.set_frame i)) :=
  fun name restart dt i =>
    ⟨play_inv c hinv hcoh hcat name restart, stop_inv c,
     pause_inv c hinv hcoh, resume_inv c hinv hcoh, reset_inv c hinv hcoh,
     update_inv c hinv hcoh dt, set_frame_inv c hinv hcoh i⟩

/-- Witness for C9: a freshly constructed controller over the `once`
catalog satisfies the hypotheses, and all seven operations preserve the
invariants there. -/
theorem C9_witness :
    (ControllerInv ((AnimationController.create onceAtlas).play "go" true) ∧
      AtlasCoherent ((AnimationController.create onceAtlas).play "go" true)) ∧
    (ControllerInv (AnimationController.create onceAtlas).stop ∧
      AtlasCoherent (AnimationController.create onceAtlas).stop) ∧
    (ControllerInv (AnimationController.create onceAtlas).pause ∧
      AtlasCoherent (AnimationController.create onceAtlas).pause) ∧
    (ControllerInv (AnimationController.create onceAtlas).resume ∧
      AtlasCoherent (AnimationController.create onceAtlas).resume) ∧
    (ControllerInv (AnimationController.create onceAtlas).reset ∧
      AtlasCoherent (AnimationController.create onceAtlas).reset) ∧
    (ControllerInv ((AnimationController.create onceAtlas).update 1) ∧
      AtlasCoherent ((AnimationController.create onceAtlas).update 1)) ∧
    (ControllerInv ((AnimationController.create onceAtlas).set_frame 5) ∧
      AtlasCoherent ((AnimationController.create onceAtlas).set_frame 5)) :=
  C9_ops_preserve_invariants (AnimationController.create onceAtlas)
    (by
      refine ⟨fun h => (Bool.false_ne_true h).elim, ?_,
        fun h => (Bool.false_ne_true h).elim⟩
      intro a h
      simp [AnimationController.create] at h)
    (by
      intro a h
      simp [AnimationController.create] at h)
    (by
      intro n a h
      by_cases hn : n = "once"
      · subst hn
        have hx : some onceAnim = some a := by
          simpa [onceAtlas, TextureAtlas.get_animation, AnimationController.create] using h
        have haa : onceAnim = a := by injection hx
        subst haa
        decide
      · simp [onceAtlas, TextureAtlas.get_animation, AnimationController.create, hn] at h)
    "go" true 1 5

/-- The pending-drain step of `AnimationStateMachine::update`: when no
automatic transition fires, a pending request exists and the controller
reports finished, the pending state is executed and the slot cleared. -/
lemma sm_update_drain (sm : AnimationStateMachine) (dt : ℚ)
    (hauto : ({ sm with controller := sm.controller.update dt }).first_transition
        sm.transitions = none)
    (hpend : sm.pending_state_name.isEmpty = false)
    (hfin : (sm.controller.update dt).is_finished = true) :
    (sm.update dt).current_state_name = sm.pending_state_name ∧
    (sm.update dt).pending_state_name = "" ∧
    (sm.update dt).has_pending_transition = false := by
  unfold AnimationStateMachine.update
  dsimp only
  rw [hauto]
  rw [if_pos (by rw [hpend, hfin]; rfl)]
  exact ⟨rfl, rfl, rfl⟩

/-- Claim C2, amended: in an `update(dt)` call during which the controller
reports `is_finished()` and a pending request exists, *provided no
automatic transition fires in the scan*, the call ends with
`current_state_name` equal to the pending state and the pending slot
empty.  (The unamended claim omits the no-automatic-transition proviso:
an automatic transition executes and returns first, skipping the drain.) -/
theorem C2_pending_drain (sm : AnimationStateMachine) (dt : ℚ)
    (hauto : ({ sm with controller := sm.controller.update dt }).first_transition
        sm.transitions = none)
    (hpend : sm.pending_state_name.isEmpty = false)
    (hfin : (sm.controller.update dt).is_finished = true) :
    (sm.update dt).current_state_name = sm.pending_state_name ∧
    (sm.update dt).has_pending_transition = false :=
  ⟨(sm_update_drain sm dt hauto hpend hfin).1,
   (sm_update_drain sm dt hauto hpend hfin).2.2⟩

/-- Witness for C2 on `smW`. -/
theorem C2_witness :
    (smW.update 1).current_state_name = smW.pending_state_name ∧
    (smW.update 1).has_pending_transition = false :=
  C2_pending_drain smW 1 rfl rfl rfl

/-- Counterexample to C2 as stated: on `smC2` the controller reports
finished during the call and a pending request exists, yet the `Immediate`
automatic transition `a → b` fires and returns, so the call ends in `"b"`
with the pending slot still occupied. -/
theorem C2_counterexample :
    (smC2.controller.update 1).is_finished = true ∧
    smC2.has_pending_transition = true ∧
    ¬ ((smC2.update 1).current_state_name = smC2.pending_state_name ∧
       (smC2.update 1).has_pending_transition = false) := by
  refine ⟨rfl, rfl, ?_⟩
  rintro ⟨h, -⟩
  exact absurd h (by decide)

/-- Claim C3: for a registered target distinct from the current state, an
unforced `transition_to` is arbitrated by priority: a strictly lower
priority target never changes the current state or touches the controller
and lands (exactly, overwriting) in the pending slot; a
greater-or-equal-priority target executes immediately. -/
theorem C3_priority_arbitration (sm : AnimationStateMachine) (target : String)
    (s : AnimationState) (hs : sm.states target = some s)
    (hne : ¬ (sm.current_state_name = target)) :
    (s.priority < sm.get_current_priority →
      (sm.transition_to target false).current_state_name = sm.current_state_name ∧
      (sm.transition_to target false).controller = sm.controller ∧
      (sm.transition_to target false).pending_state_name = target) ∧
    (sm.get_current_priority ≤ s.priority →
      (sm.transition_to target false).current_state_name = target ∧
      (sm.transition_to target false).controller = sm.controller.play target true) := by
  have hbeq : (sm.current_state_name == target) = false := beq_eq_false_iff_ne.mpr hne
  constructor
  · intro hlt
    have hcan : sm.can_transition target = false := by
      unfold AnimationStateMachine.can_transition
      rw [hs]
      exact decide_eq_false (not_le.mpr hlt)
    simp [AnimationStateMachine.transition_to, hs, hbeq, hcan]
  · intro hge
    have hcan : sm.can_transition target = true := by
      unfold AnimationStateMachine.can_transition
      rw [hs]
      exact decide_eq_true hge
    simp [AnimationStateMachine.transition_to, hs, hbeq, hcan,
      AnimationStateMachine.execute_transition]

/-- Witness for C3: on `smP`, requesting low-priority `"idle"` defers it
to the pending slot; requesting high-priority `"super"` executes at once. -/
theorem C3_witness :
    ((smP.transition_to "idle" false).current_state_name = smP.current_state_name ∧
     (smP.transition_to "idle" false).controller = smP.controller ∧
     (smP.transition_to "idle" false).pending_state_name = "idle") ∧
    ((smP.transition_to "super" false).current_state_name = "super" ∧
     (smP.transition_to "super" false).controller = smP.controller.play "super" true) :=
  ⟨(C3_priority_arbitration smP "idle" ⟨"idle", 0⟩ rfl (by decide)).1 (by decide),
   (C3_priority_arbitration smP "super" ⟨"super", 5⟩ rfl (by decide)).2 (by decide)⟩

/-- Claim C10: the pending slot is left untouched both by an allowed
unforced `transition_to` and by an automatic transition firing inside
`update`; only a forced `transition_to` and the pending drain itself clear
it, and a stale pending request still executes once a later animation
reports finished. -/
theorem C10_pending_slot_discipline (sm : AnimationStateMachine) :
    (∀ target s, sm.states target = some s → ¬ (sm.current_state_name = target) →
      sm.can_transition target = true →
      (sm.transition_to target false).pending_state_name = sm.pending_state_name ∧
      (sm.transition_to target false).current_state_name = target) ∧
    (∀ (dt : ℚ) (t : AnimationTransition),
      ({ sm with controller := sm.controller.update dt }).first_transition
          sm.transitions = some t →
      (sm.update dt).pending_state_name = sm.pending_state_name ∧
      (sm.update dt).current_state_name = t.to_state) ∧
    (∀ target s, sm.states target = some s →
      (sm.transition_to target true).pending_state_name = "") ∧
    (∀ (dt : ℚ),
      ({ sm with controller := sm.controller.update dt }).first_transition
          sm.transitions = none →
      sm.pending_state_name.isEmpty = false →
      (sm.controller.update dt).is_finished = true →
      (sm.update dt).current_state_name = sm.pending_state_name ∧
      (sm.update dt).pending_state_name = "") := by
  refine ⟨?_, ?_, ?_, ?_⟩
  · intro target s hs hne hcan
    have hbeq : (sm.current_state_name == target) = false := beq_eq_false_iff_ne.mpr hne
    simp [AnimationStateMachine.transition_to, hs, hbeq, hcan,
      AnimationStateMachine.execute_transition]
  · intro dt t hauto
    unfold AnimationStateMachine.update
    dsimp only
    rw [hauto]
    exact ⟨rfl, rfl⟩
  · intro target s hs
    simp [AnimationStateMachine.transition_to, hs,
      AnimationStateMachine.execute_transition]
  · intro dt hauto hpend hfin
    exact ⟨(sm_update_drain sm dt hauto hpend hfin).1,
      (sm_update_drain sm dt hauto hpend hfin).2.1⟩

/-- Witness for C10 on `smQ` (parts 1–3) and `smW` (part 4). -/
theorem C10_witness :
    ((smQ.transition_to "b" false).pending_state_name = smQ.pending_state_name ∧
     (smQ.transition_to "b" false).current_state_name = "b") ∧
    ((smQ.update 1).pending_state_name = smQ.pending_state_name ∧
     (smQ.update 1).current_state_name =
       (⟨"a", "b", TransitionCondition.Immediate, none⟩ : AnimationTransition).to_state) ∧
    ((smQ.transition_to "b" true).pending_state_name = "") ∧
    ((smW.update 1).current_state_name = smW.pending_state_name ∧
     (smW.update 1).pending_state_name = "") :=
  ⟨(C10_pending_slot_discipline smQ).1 "b" ⟨"b", 0⟩ rfl (by decide) rfl,
   (C10_pending_slot_discipline smQ).2.1 1
     ⟨"a", "b", TransitionCondition.Immediate, none⟩ rfl,
   (C10_pending_slot_discipline smQ).2.2.1 "b" ⟨"b", 0⟩ rfl,
   (C10_pending_slot_discipline smW).2.2.2 1 rfl rfl rfl⟩

end Engine
